import Mathlib

/-!
Shallow embedding of the core of the tree_service repository (Go):

* the tree builder (src/handlers/tree.go, BuildTreeFromNodes),
* the GET /tree handler parameter handling (src/handlers/tree.go, GetTree),
* the paginated in-memory cache (the MemoryCache variant keyed by
  (page, pageSize), src/cache/dynamodb_cache.go, second file in the blob),
* the repository implementations: the two MockRepository variants with
  paginated GetAllNodes (src/unnamed/part_016 first file and
  src/unnamed/part_015 second file) and the PostgresRepository
  (src/unnamed/part_014, its SQL modelled directly).

Go int64 / int values are modelled as Int (no operation here approaches the
64-bit range except strconv.Atoi, whose overflow check is modelled
explicitly); Go maps are modelled as association lists whose list order
stands in for the unspecified Go map iteration order; time.Time is modelled as
an Int instant passed explicitly to each operation that calls time.Now().
-/

/-- The repository.Node row type (src/repository/repository.go): id, label,
and an optional reference to the parent node id. -/
structure RNode where
  id : Int
  label : String
  parentID : Option Int
deriving DecidableEq, Repr

/-- The models.Node tree-shaped view type (src/models/tree.go): id, label and
a list of children, as produced for JSON responses. -/
inductive MNode where
  | mk (id : Int) (label : String) (children : List MNode)

/-- Projection of the id field of a models.Node. -/
def MNode.id : MNode → Int
  | .mk i _ _ => i

/-- Projection of the label field of a models.Node. -/
def MNode.label : MNode → String
  | .mk _ l _ => l

/-- Projection of the children field of a models.Node. -/
def MNode.children : MNode → List MNode
  | .mk _ _ cs => cs

/-- The error ErrTreeNotFound of src/handlers/tree.go. -/
inductive TreeError where
  | treeNotFound
deriving DecidableEq, Repr

/-- Key set of the nodeMap built by the first pass of BuildTreeFromNodes
(src/handlers/tree.go lines 47-52): the ids of the rows of the page. -/
def pageIds (nodes : List RNode) : List Int := nodes.map (·.id)

/-- Second-pass classification of one row (src/handlers/tree.go lines 55-68):
a row is appended to rootNodes when its ParentID is nil, or when its ParentID
is not a key of the nodeMap of the page (the parent lives on another page). -/
def isTopLevel (ids : List Int) (n : RNode) : Bool :=
  match n.parentID with
  | none => true
  | some p => !(ids.contains p)

/-- The rows appended to rootNodes by the second pass, in row order. -/
def rootRows (nodes : List RNode) : List RNode :=
  nodes.filter (isTopLevel (pageIds nodes))

/-- The ids appended (in row order) to the children of the nodeMap entry of
id p by the second pass: rows whose ParentID equals p. The AddChild branch
fires only when p is a key of nodeMap, which holds whenever p is itself the
id of a row of the page, the only case in which this function is consulted. -/
def childIds (nodes : List RNode) (p : Int) : List Int :=
  (nodes.filter (fun n => n.parentID == some p)).map (·.id)

/-- The label held by the nodeMap entry of id i after the first pass: the
first pass overwrites the map entry row by row, so the last row with that id
wins. Ids are unique in practice, making this simply the label of that row. -/
def labelOf (nodes : List RNode) (i : Int) : String :=
  match (nodes.filter (fun n => n.id == i)).getLast? with
  | some n => n.label
  | none => ""

/-- Materialisation of the pointer structure built by BuildTreeFromNodes,
reading the node of id i to the given depth. The Go function links mutable
pointers, so its result is a graph read lazily; every path of the acyclic
part reachable from the returned roots visits pairwise distinct ids, hence
depth nodes.length renders that part exactly. -/
def render (nodes : List RNode) : Nat → Int → MNode
  | 0, i => .mk i (labelOf nodes i) []
  | fuel+1, i => .mk i (labelOf nodes i) ((childIds nodes i).map (render nodes fuel))

/-- BuildTreeFromNodes (src/handlers/tree.go lines 38-76): errors with
ErrTreeNotFound on an empty page, otherwise builds one models.Node per row,
links each row with an in-page parent under that parent, keeps the other
rows at top level in row order, and errors with ErrTreeNotFound when no row
at all ended up at top level. -/
def BuildTreeFromNodes (nodes : List RNode) : Except TreeError (List MNode) :=
  if nodes.isEmpty then .error .treeNotFound
  else
    let roots := rootRows nodes
    if roots.isEmpty then .error .treeNotFound
    else .ok (roots.map (fun n => render nodes nodes.length n.id))

/-- Pagination block of the cached response type PaginatedTreeResponse
(src/cache/cache.go lines 20-27). -/
structure Pagination where
  page : Int
  pageSize : Int
  total : Int
  totalPages : Int
  hasNext : Bool
  hasPrev : Bool
deriving DecidableEq, Repr

/-- The cached response type PaginatedTreeResponse (src/cache/cache.go
lines 17-28): the top-level tree nodes of one page plus its pagination
block. -/
structure PaginatedTreeResponse where
  data : List MNode
  pagination : Pagination

/-- Lookup in a Go map modelled as an association list. -/
def mapLookup (m : List ((Int × Int) × β)) (k : Int × Int) : Option β :=
  match m.find? (fun e => e.1 == k) with
  | some e => some e.2
  | none => none

/-- Assignment m[k] = v in a Go map modelled as an association list: replace
the value when the key is present, add the entry otherwise. The position of
the entry in the list carries no meaning, as a Go map has no iteration
order. -/
def mapInsert (m : List ((Int × Int) × β)) (k : Int × Int) (v : β) :
    List ((Int × Int) × β) :=
  match m with
  | [] => [(k, v)]
  | a :: t => if a.1 == k then (k, v) :: t else a :: mapInsert t k v

/-- getCacheKey (memory cache in src/cache/dynamodb_cache.go): the Go code
renders the pair into the string "tree:page:pageSize" with fmt.Sprintf;
decimal renderings contain no colon, so the rendering is injective and the
key is modelled as the pair (page, pageSize) itself. -/
def getCacheKey (page pageSize : Int) : Int × Int := (page, pageSize)

/-- The paginated MemoryCache state (src/cache/dynamodb_cache.go, second
file of the blob, lines 201-216 of the concatenation): a data map and an
expiries map keyed by the same cache keys, plus the current ttl. The sync
mutex is a concurrency artifact with no sequential content and is not
modelled. -/
structure MemoryCache where
  data : List ((Int × Int) × PaginatedTreeResponse)
  ttl : Int
  expiries : List ((Int × Int) × Int)

/-- NewMemoryCache with a given ttl (the Go constructor fixes 5 minutes). -/
def MemoryCache.new (ttl : Int) : MemoryCache :=
  { data := [], ttl := ttl, expiries := [] }

/-- MemoryCache.GetPaginatedTree (src/cache/dynamodb_cache.go lines 228-244
of the concatenation): look up the expiry of the key; report a miss when
absent or when now is strictly after it (time.Now().After(expiry)); then
serve the data entry when present. The instant now stands for time.Now(). -/
def MemoryCache.GetPaginatedTree (c : MemoryCache) (now page pageSize : Int) :
    Option PaginatedTreeResponse × Bool :=
  let key := getCacheKey page pageSize
  match mapLookup c.expiries key with
  | none => (none, false)
  | some expiry =>
    if now > expiry then (none, false)
    else
      match mapLookup c.data key with
      | some response => (some response, true)
      | none => (none, false)

/-- MemoryCache.SetPaginatedTree (src/cache/dynamodb_cache.go lines 247-254
of the concatenation): store the response under the key and set its expiry
to now + ttl. -/
def MemoryCache.SetPaginatedTree (c : MemoryCache) (now page pageSize : Int)
    (response : PaginatedTreeResponse) : MemoryCache :=
  let key := getCacheKey page pageSize
  { c with
    data := mapInsert c.data key response
    expiries := mapInsert c.expiries key (now + c.ttl) }

/-- MemoryCache.InvalidateCache (src/cache/dynamodb_cache.go lines 257-263 of
the concatenation): replace both maps with fresh empty maps. The package
level cache.InvalidateCache (src/cache/cache.go lines 94-99) forwards to this
under the provider lock. -/
def MemoryCache.InvalidateCache (c : MemoryCache) : MemoryCache :=
  { c with data := [], expiries := [] }

/-- MemoryCache.SetCacheTTL (src/cache/dynamodb_cache.go lines 266-276 of the
concatenation): store the new ttl and reset the expiry of every key of the
data map to now + ttl. -/
def MemoryCache.SetCacheTTL (c : MemoryCache) (now ttl : Int) : MemoryCache :=
  { c with
    ttl := ttl
    expiries := c.data.foldl (fun es e => mapInsert es e.1 (now + ttl)) c.expiries }

/-- A MockRepository node store (m.nodes, a Go map from id to node), modelled
as the list of its entries; the list order stands in for the unspecified Go
map iteration order, and the store operations keep ids unique exactly as the
map does. -/
abbrev Store := List RNode

/-- Go sort.Slice over node slices with less = (ids are compared with <):
ids are pairwise distinct in a map, so any correct sort yields the unique
ordering by ascending id; it is modelled with insertion sort. -/
def sortById (l : List RNode) : List RNode :=
  l.insertionSort (fun a b => a.id ≤ b.id)

/-- A Go slice expression xs[lo:hi]: defined exactly when
0 ≤ lo ≤ hi ≤ len(xs), and a runtime panic (modelled as none) otherwise. -/
def goSlice (xs : List α) (lo hi : Int) : Option (List α) :=
  if 0 ≤ lo ∧ lo ≤ hi ∧ hi ≤ (xs.length : Int) then
    some ((xs.drop lo.toNat).take (hi - lo).toNat)
  else none

/-- MockRepository.CreateNode of the paginated mock (src/unnamed/part_016
lines 36-54): the new id is len(m.nodes) + 1 and the node is assigned into
the map under that id (overwriting any entry already there). The Go error
result is always nil, so the function returns just the id and the new
store. -/
def MockRepository.CreateNode (store : Store) (label : String)
    (parentID : Option Int) : Int × Store :=
  let id : Int := (List.length store) + 1
  let node : RNode := { id := id, label := label, parentID := parentID }
  let store : Store :=
    if (store : List RNode).any (fun n => n.id == id) then
      (store : List RNode).map (fun n => if n.id == id then node else n)
    else (store : List RNode) ++ [node]
  (id, store)

/-- The set of ids referenced as a parent by some row of the store; only used
as a component of the termination measure of deleteLoop. -/
def parentRefIds (nodes : List RNode) : Finset Int :=
  (nodes.filterMap (·.parentID)).toFinset

/-- The while-loop of MockRepository.DeleteNode (src/unnamed/part_016 lines
241-259): pop an id off the toDelete queue; skip it when already deleted,
otherwise enqueue the ids of all rows whose ParentID equals it, remove it
from the map and record it as deleted. The loop terminates because every
processed id shrinks the map, or retires a still-undeleted parent reference,
or shortens the queue. -/
def deleteLoop (toDelete : List Int) (deleted : List Int) (nodes : List RNode) :
    List RNode :=
  match toDelete with
  | [] => nodes
  | currentID :: rest =>
    if h : currentID ∈ deleted then
      deleteLoop rest deleted nodes
    else
      let children := (nodes.filter (fun n => n.parentID == some currentID)).map (·.id)
      deleteLoop (rest ++ children) (currentID :: deleted)
        (nodes.filter (fun n => n.id != currentID))
termination_by
  (nodes.length, (parentRefIds nodes \ deleted.toFinset).card, toDelete.length)
decreasing_by
  · apply Prod.Lex.right
    apply Prod.Lex.right
    simp
  · by_cases hmem : ∃ n ∈ nodes, n.id = currentID
    · apply Prod.Lex.left
      rw [List.length_filter_lt_length_iff_exists]
      obtain ⟨n, hn, hid⟩ := hmem
      exact ⟨n, hn, by simp [hid]⟩
    · have hkeep : nodes.filter (fun n => n.id != currentID) = nodes := by
        rw [List.filter_eq_self]
        intro n hn
        simp only [bne_iff_ne, ne_eq, decide_eq_true_eq]
        exact fun hid => hmem ⟨n, hn, hid⟩
      rw [hkeep]
      by_cases href : currentID ∈ parentRefIds nodes
      · apply Prod.Lex.right
        apply Prod.Lex.left
        have : (parentRefIds nodes \ (currentID :: deleted).toFinset) =
            (parentRefIds nodes \ deleted.toFinset).erase currentID := by
          simp [List.toFinset_cons, Finset.sdiff_insert]
        rw [this]
        apply Finset.card_erase_lt_of_mem
        exact Finset.mem_sdiff.mpr ⟨href, by simpa using h⟩
      · have hchil : nodes.filter (fun n => n.parentID == some currentID) = [] := by
          rw [List.filter_eq_nil_iff]
          intro n hn hbeq
          exact href (by
            simp only [parentRefIds, List.mem_toFinset, List.mem_filterMap]
            exact ⟨n, hn, by simpa using hbeq⟩)
        have hcard : (parentRefIds nodes \ (currentID :: deleted).toFinset) =
            parentRefIds nodes \ deleted.toFinset := by
          simp only [List.toFinset_cons, Finset.sdiff_insert]
          apply Finset.erase_eq_of_not_mem
          simp [href]
        rw [hcard, hchil]
        apply Prod.Lex.right
        apply Prod.Lex.right
        simp

/-- MockRepository.DeleteNode of the paginated mock (src/unnamed/part_016
lines 233-262): breadth-first deletion of the id and all its transitive
descendants. The function returns nil unconditionally: there is no check
that the node exists, so the error is always absent, which the model makes
explicit by returning ok in every case. -/
def MockRepository.DeleteNode (store : Store) (id : Int) : Except Unit Store :=
  .ok (deleteLoop [id] [] store)

/-- MockRepository.GetAllNodes of src/unnamed/part_015 (second file of the
blob, lines 252-284): sort all nodes by id, then slice
[(page-1)*pageSize, page*pageSize) with an early empty return when the
offset is at or past the total and a clamp of the upper bound to the total.
The slice expression panics (none) when the offset is negative. -/
def MockRepository.GetAllNodes15 (store : Store) (page pageSize : Int) :
    Option (List RNode × Int) :=
  let total : Int := (store : List RNode).length
  let offset : Int := (page - 1) * pageSize
  let allNodes := sortById store
  let start := offset
  let stop := offset + pageSize
  if start ≥ total then some ([], total)
  else
    let stop := if stop > total then total else stop
    (goSlice allNodes start stop).map (fun l => (l, total))

/-- The fallback block of MockRepository.GetAllNodes of src/unnamed/part_016
(lines 144-182): ran when pagination of the roots produced nothing although
the store is non-empty. For each node of the store, in iteration order, skip
it when a node of the same id was already appended; otherwise append a copy
of its parent first when that parent exists, then append the node. -/
def fallbackBuild (store : List RNode) : List RNode :=
  store.foldl (fun acc node =>
    if acc.any (fun m => m.id == node.id) then acc
    else
      let acc :=
        match node.parentID with
        | some pid =>
          match store.find? (fun m => m.id == pid) with
          | some parent => acc ++ [parent]
          | none => acc
        | none => acc
      acc ++ [node]) []

/-- The trailing block of MockRepository.GetAllNodes of src/unnamed/part_016
(lines 185-211): when the first result entry is a root, append every not yet
included child of that first entry, then sort the result by id. -/
def appendFirstRootChildren (store : List RNode) (result : List RNode) :
    List RNode :=
  match result with
  | [] => result
  | r0 :: _ =>
    if r0.parentID == none then
      sortById (store.foldl (fun acc node =>
        if node.parentID == some r0.id then
          if acc.any (fun m => m.id == node.id) then acc
          else acc ++ [node]
        else acc) result)
    else result

/-- MockRepository.GetAllNodes of src/unnamed/part_016 (lines 70-214). This
variant does not slice the full node list: when pageSize ≥ the store size it
returns every node sorted by id; otherwise it slices the sorted list of root
nodes by [(page-1)*pageSize, page*pageSize) (panicking, modelled as none,
on a negative offset), then emits each sliced root followed by all of its
children in iteration order, with the fallback and first-root blocks applied
afterwards. The total is always the full store size. -/
def MockRepository.GetAllNodes16 (store : Store) (page pageSize : Int) :
    Option (List RNode × Int) :=
  let rootNodes := sortById ((store : List RNode).filter (fun n => n.parentID == none))
  if pageSize ≥ ((store : List RNode).length : Int) then
    some (sortById store, (store : List RNode).length)
  else
    let offset : Int := (page - 1) * pageSize
    let stop0 : Int := offset + pageSize
    let stop : Int :=
      if stop0 > (rootNodes.length : Int) then (rootNodes.length : Int) else stop0
    let paginatedRoots? : Option (List RNode) :=
      if offset < (rootNodes.length : Int) then goSlice rootNodes offset stop
      else some []
    match paginatedRoots? with
    | none => none
    | some paginatedRoots =>
      let result := paginatedRoots.foldl (fun acc root =>
        acc ++ [root] ++
          (store : List RNode).filter (fun n => n.parentID == some root.id)) []
      let result :=
        if result.isEmpty && !(store : List RNode).isEmpty then
          sortById (fallbackBuild store)
        else result
      let result := appendFirstRootChildren store result
      some (result, (store : List RNode).length)

/-- Modelled from the SQL of PostgresRepository.GetAllNodes
(src/unnamed/part_014 lines 168-210): SELECT COUNT(star) FROM nodes gives the
full row count, and SELECT ... ORDER BY id LIMIT pageSize OFFSET
(page-1)*pageSize gives the rows sorted by id, skipping the offset and
keeping at most pageSize rows. PostgreSQL rejects a negative OFFSET or
LIMIT with an error, returned as none. -/
def PostgresRepository.GetAllNodes (store : Store) (page pageSize : Int) :
    Option (List RNode × Int) :=
  let offset : Int := (page - 1) * pageSize
  if offset < 0 ∨ pageSize < 0 then none
  else some (((sortById store).drop offset.toNat).take pageSize.toNat,
    ((store : List RNode).length : Int))

/-- Value of one decimal digit character, none for any other character. -/
def digitVal (c : Char) : Option Nat :=
  if '0' ≤ c ∧ c ≤ '9' then some (c.toNat - Char.toNat '0') else none

/-- Decimal parse of a digit run: none when empty or when any character is
not a digit. -/
def parseDigits (cs : List Char) : Option Nat :=
  match cs with
  | [] => none
  | _ =>
    cs.foldl (fun acc c =>
      match acc, digitVal c with
      | some n, some d => some (n * 10 + d)
      | _, _ => none) (some 0)

/-- strconv.Atoi (Go standard library), as used by the handler: an optional
single plus or minus sign followed by at least one decimal digit, with an
error (none) for anything else, including values outside the 64-bit signed
range. -/
def Atoi (s : String) : Option Int :=
  let inRange : Int → Option Int := fun v =>
    if v < -(2 ^ 63) ∨ v > 2 ^ 63 - 1 then none else some v
  match s.data with
  | '+' :: rest => (parseDigits rest).bind (fun n => inRange n)
  | '-' :: rest => (parseDigits rest).bind (fun n => inRange (-(n : Int)))
  | l => (parseDigits l).bind (fun n => inRange n)

/-- Outcome of one GET /tree request: the HTTP status written, the JSON body
when it is a PaginatedTreeResponse (error bodies are short message maps,
carried here by the status alone), and the cache state afterwards. -/
structure GetTreeResult where
  status : Int
  body : Option PaginatedTreeResponse
  cache : MemoryCache

/-- The page parameter handling of GetTree (src/handlers/tree.go lines
84-89): page starts at the default 1 and is overwritten only when the query
value parses to a positive integer; an invalid or non-positive value is
silently ignored. Query values come in as strings, the empty string when the
parameter is absent (the Gin Query accessor). -/
def parsePage (pageStr : String) : Int :=
  if pageStr ≠ "" then
    match Atoi pageStr with
    | some p => if p > 0 then p else 1
    | none => 1
  else 1

/-- The pageSize parameter handling of GetTree (src/handlers/tree.go lines
92-107): default 10 when the parameter is absent; a present value must parse
to an integer that is positive and at most 100, and anything else is
rejected (the error is answered with status 400). -/
def parsePageSize (pageSizeStr : String) : Except Unit Int :=
  if pageSizeStr ≠ "" then
    match Atoi pageSizeStr with
    | none => .error ()
    | some ps =>
      if ps ≤ 0 then .error ()
      else if ps > 100 then .error ()
      else .ok ps
  else .ok 10

/-- The cache-then-repository part of GetTree (src/handlers/tree.go lines
109-154): on a cache hit the cached response is returned as is; otherwise
the repository page is fetched (repoGetAll stands for h.repo.GetAllNodes; a
repository error yields 500), the pagination block is computed with
totalPages = (total + pageSize - 1) / pageSize in Go integer division, the
tree is built when the page is non-empty (an ErrTreeNotFound from the
builder returns the empty-data response without caching it), and otherwise
the response is cached and returned with status 200. -/
def serveTree (repoGetAll : Int → Int → Except Unit (List RNode × Int))
    (c : MemoryCache) (now page pageSize : Int) : GetTreeResult :=
  match c.GetPaginatedTree now page pageSize with
  | (some cached, true) => { status := 200, body := some cached, cache := c }
  | _ =>
    match repoGetAll page pageSize with
    | .error _ => { status := 500, body := none, cache := c }
    | .ok (allNodes, total) =>
      let totalPages : Int := Int.tdiv (total + pageSize - 1) pageSize
      let response0 : PaginatedTreeResponse :=
        { data := []
          pagination :=
            { page := page, pageSize := pageSize, total := total
              totalPages := totalPages
              hasNext := decide (page < totalPages)
              hasPrev := decide (page > 1) } }
      if allNodes.length > 0 then
        match BuildTreeFromNodes allNodes with
        | .error .treeNotFound =>
          { status := 200, body := some response0, cache := c }
        | .ok rootNodes =>
          let response := { response0 with data := rootNodes }
          { status := 200, body := some response
            cache := c.SetPaginatedTree now page pageSize response }
      else
        { status := 200, body := some response0
          cache := c.SetPaginatedTree now page pageSize response0 }

/-- TreeHandler.GetTree (src/handlers/tree.go lines 79-154): parse the page
parameter (never failing), parse the pageSize parameter (answering 400 on a
bad value), then serve from cache or repository. -/
def TreeHandler.GetTree (repoGetAll : Int → Int → Except Unit (List RNode × Int))
    (c : MemoryCache) (now : Int) (pageStr pageSizeStr : String) : GetTreeResult :=
  match parsePageSize pageSizeStr with
  | .error _ => { status := 400, body := none, cache := c }
  | .ok pageSize => serveTree repoGetAll c now (parsePage pageStr) pageSize

/-- Rendering a node keeps its id at the top of the produced TreeNode. -/
theorem render_id (nodes : List RNode) (fuel : Nat) (i : Int) :
    (render nodes fuel i).id = i := by
  cases fuel <;> rfl

/-- Rendering a node reads its label from the nodeMap of the page. -/
theorem render_label (nodes : List RNode) (fuel : Nat) (i : Int) :
    (render nodes fuel i).label = labelOf nodes i := by
  cases fuel <;> rfl

/-- Claim C1: on every non-empty page, a row whose parent_id is non-null but
is not the id of any row of the same page is returned by BuildTreeFromNodes
as a top-level entry (an orphan-root) rather than an error, and the
top-level entries keep row order: their id sequence is an order-preserving
subsequence of the id sequence of the page. -/
theorem claim_C1_orphan_row_is_top_level (nodes : List RNode) (n : RNode)
    (p : Int) (hn : n ∈ nodes) (hp : n.parentID = some p)
    (habs : p ∉ pageIds nodes) :
    ∃ result, BuildTreeFromNodes nodes = .ok result ∧
      (∃ t ∈ result, t.id = n.id ∧ t.label = labelOf nodes n.id) ∧
      List.Sublist (result.map MNode.id) (nodes.map RNode.id) := by
  have htop : isTopLevel (pageIds nodes) n = true := by
    simp only [isTopLevel, hp]
    simpa using habs
  have hmem : n ∈ rootRows nodes := List.mem_filter.mpr ⟨hn, htop⟩
  have hroots : (rootRows nodes).isEmpty = false := by
    cases hr : rootRows nodes with
    | nil => rw [hr] at hmem; cases hmem
    | cons a l => rfl
  have hnodes : nodes.isEmpty = false := by
    cases nodes with
    | nil => cases hn
    | cons a l => rfl
  refine ⟨(rootRows nodes).map (fun m => render nodes nodes.length m.id), ?_, ?_, ?_⟩
  · simp only [BuildTreeFromNodes, hnodes, hroots]
    rfl
  · exact ⟨render nodes nodes.length n.id, List.mem_map_of_mem _ hmem,
      render_id nodes nodes.length n.id, render_label nodes nodes.length n.id⟩
  · have : ((rootRows nodes).map (fun m => render nodes nodes.length m.id)).map MNode.id
        = (rootRows nodes).map RNode.id := by
      rw [List.map_map]
      exact List.map_congr_left (fun m _ => render_id nodes nodes.length m.id)
    rw [this]
    exact List.Sublist.map RNode.id (List.filter_sublist nodes)

/-- Witness for claim C1: the page with the single row childA whose parent 99
is not on the page yields childA as a top-level entry. -/
theorem claim_C1_orphan_row_is_top_level_witness :
    ∃ result, BuildTreeFromNodes [⟨5, "childA", some 99⟩] = .ok result ∧
      (∃ t ∈ result, t.id = (5 : Int) ∧
        t.label = labelOf [⟨5, "childA", some 99⟩] 5) ∧
      List.Sublist (result.map MNode.id) ([⟨5, "childA", some 99⟩].map RNode.id) :=
  claim_C1_orphan_row_is_top_level [⟨5, "childA", some 99⟩]
    ⟨5, "childA", some 99⟩ 99 (by decide) rfl (by decide)

/-- Claim C10: BuildTreeFromNodes is a total function of the page (its two
passes are bounded folds, embedded without any partiality), and on a
non-empty page in which every row has a non-null parent_id that is the id of
some row of the same page, for instance a two-node parent cycle, it returns
the tree-not-found error instead of looping or returning top-level nodes. -/
theorem claim_C10_all_parented_page_is_error (nodes : List RNode)
    (hne : nodes ≠ [])
    (hall : ∀ n ∈ nodes, ∃ p, n.parentID = some p ∧ p ∈ pageIds nodes) :
    BuildTreeFromNodes nodes = .error .treeNotFound := by
  have hnodes : nodes.isEmpty = false := by
    cases nodes with
    | nil => exact absurd rfl hne
    | cons a l => rfl
  have hroots : rootRows nodes = [] := by
    rw [rootRows, List.filter_eq_nil_iff]
    intro n hn
    obtain ⟨p, hp, hmem⟩ := hall n hn
    simp only [isTopLevel, hp]
    simpa using hmem
  simp [BuildTreeFromNodes, hnodes, hroots]

/-- Witness for claim C10: the two-row cycle 1 -> 2 -> 1 yields the
tree-not-found error. -/
theorem claim_C10_all_parented_page_is_error_witness :
    BuildTreeFromNodes [⟨1, "a", some 2⟩, ⟨2, "b", some 1⟩] = .error .treeNotFound :=
  claim_C10_all_parented_page_is_error [⟨1, "a", some 2⟩, ⟨2, "b", some 1⟩]
    (by decide) (by
      intro n hn
      rcases List.mem_pair.mp hn with h | h <;> subst h
      · exact ⟨2, rfl, by decide⟩
      · exact ⟨1, rfl, by decide⟩)

/-- Unfolding one entry of a map read. -/
theorem mapLookup_cons (a : (Int × Int) × β) (t : List ((Int × Int) × β))
    (k : Int × Int) :
    mapLookup (a :: t) k = if a.1 = k then some a.2 else mapLookup t k := by
  by_cases h : a.1 = k
  · simp [mapLookup, List.find?, h]
  · have hb : (a.1 == k) = false := by simpa using h
    simp [mapLookup, List.find?, hb, h]

/-- Reading a map after an assignment: the assigned key sees the new value,
every other key is unchanged. -/
theorem mapLookup_insert (m : List ((Int × Int) × β)) (k k' : Int × Int) (v : β) :
    mapLookup (mapInsert m k v) k' = if k' = k then some v else mapLookup m k' := by
  induction m with
  | nil =>
    by_cases h : k' = k
    · simp [mapInsert, mapLookup_cons, h]
    · simp [mapInsert, mapLookup_cons, Ne.symm h, h, mapLookup]
  | cons a t ih =>
    by_cases h1 : a.1 = k
    · have hb : (a.1 == k) = true := by simpa using h1
      by_cases h2 : k' = k
      · simp [mapInsert, hb, mapLookup_cons, h2]
      · have ha : ¬ (a.1 = k') := by rw [h1]; exact Ne.symm h2
        simp [mapInsert, hb, mapLookup_cons, h2, Ne.symm h2, ha]
    · have hb : (a.1 == k) = false := by simpa using h1
      by_cases h3 : a.1 = k'
      · have hk : ¬ (k' = k) := fun he => h1 (h3.trans he)
        simp [mapInsert, hb, mapLookup_cons, h3, hk]
      · simp [mapInsert, hb, mapLookup_cons, h3, ih]

/-- Claim C3: InvalidateCache replaces both cache maps by fresh empty maps,
so that a subsequent GetPaginatedTree on any (page, pageSize) key and at any
time reports found = false, and a hit needs a new put for that key: a put
after the invalidation makes a get at or before the fresh expiry a hit
again. -/
theorem claim_C3_invalidate_removes_every_entry (c : MemoryCache) :
    (c.InvalidateCache.data = [] ∧ c.InvalidateCache.expiries = []) ∧
    (∀ now page pageSize : Int,
      c.InvalidateCache.GetPaginatedTree now page pageSize = (none, false)) ∧
    (∀ t now page pageSize : Int, ∀ r : PaginatedTreeResponse,
      now ≤ t + c.ttl →
      (c.InvalidateCache.SetPaginatedTree t page pageSize r).GetPaginatedTree
        now page pageSize = (some r, true)) := by
  refine ⟨⟨rfl, rfl⟩, fun now page pageSize => rfl, ?_⟩
  intro t now page pageSize r hnow
  have hexp : mapLookup
      ((c.InvalidateCache.SetPaginatedTree t page pageSize r).expiries)
      (getCacheKey page pageSize) = some (t + c.ttl) := by
    simp [MemoryCache.SetPaginatedTree, MemoryCache.InvalidateCache,
      mapLookup_insert]
  have hdat : mapLookup
      ((c.InvalidateCache.SetPaginatedTree t page pageSize r).data)
      (getCacheKey page pageSize) = some r := by
    simp [MemoryCache.SetPaginatedTree, MemoryCache.InvalidateCache,
      mapLookup_insert]
  have hle : ¬ (t + c.ttl < now) := not_lt.mpr hnow
  simp [MemoryCache.GetPaginatedTree, MemoryCache.SetPaginatedTree,
    MemoryCache.InvalidateCache, mapLookup_insert, hle]

/-- Witness for claim C3: after two puts on keys (1,10) and (2,10) and an
invalidation, both gets miss, and a fresh put revives its key. -/
theorem claim_C3_invalidate_removes_every_entry_witness :
    (((((MemoryCache.new 5).SetPaginatedTree 0 1 10
          ⟨[], ⟨1, 10, 0, 0, false, false⟩⟩).SetPaginatedTree 0 2 10
          ⟨[], ⟨2, 10, 0, 0, false, false⟩⟩).InvalidateCache).GetPaginatedTree
          1 1 10 = (none, false)) ∧
    (((((MemoryCache.new 5).SetPaginatedTree 0 1 10
          ⟨[], ⟨1, 10, 0, 0, false, false⟩⟩).SetPaginatedTree 0 2 10
          ⟨[], ⟨2, 10, 0, 0, false, false⟩⟩).InvalidateCache).SetPaginatedTree
          1 1 10 ⟨[], ⟨1, 10, 0, 0, false, false⟩⟩).GetPaginatedTree 2 1 10 =
          (some ⟨[], ⟨1, 10, 0, 0, false, false⟩⟩, true) := by
  constructor
  · exact (claim_C3_invalidate_removes_every_entry _).2.1 1 1 10
  · exact (claim_C3_invalidate_removes_every_entry _).2.2 1 2 1 10 _ (by decide)

/-- A sample cached response used by concrete cache scenarios. -/
def sampleResponse : PaginatedTreeResponse :=
  ⟨[], ⟨1, 10, 0, 0, false, false⟩⟩

/-- Counterexample to claim C4 as stated: with ttl 5, a put at time 0 sets
expiresAt = 5, and a get exactly at time now = 5 still reports found = true,
although now ≥ expiresAt, because the code misses only when
time.Now().After(expiry), a strict comparison. -/
theorem claim_C4_counterexample :
    (5 : Int) ≥ 0 + (MemoryCache.new 5).ttl ∧
    (((MemoryCache.new 5).SetPaginatedTree 0 1 10
        sampleResponse).GetPaginatedTree 5 1 10).2 = true :=
  ⟨by decide, rfl⟩

/-- Claim C4 as amended: a get misses exactly when the key has no expiry
entry or now is strictly after the expiry (at now = expiresAt the entry is
still served), provided data and expiries list the same keys, which every
reachable cache state does; a put followed by a get at any time up to
put-time + ttl is a hit returning the stored response; and a put leaves the
get of every other (page, pageSize) key unchanged. -/
theorem claim_C4_get_miss_characterisation :
    (∀ (c : MemoryCache) (now page pageSize : Int),
      (mapLookup c.data (getCacheKey page pageSize)).isSome =
        (mapLookup c.expiries (getCacheKey page pageSize)).isSome →
      ((c.GetPaginatedTree now page pageSize).2 = false ↔
        mapLookup c.expiries (getCacheKey page pageSize) = none ∨
        (∃ e, mapLookup c.expiries (getCacheKey page pageSize) = some e ∧
          now > e))) ∧
    (∀ (c : MemoryCache) (t page pageSize : Int) (r : PaginatedTreeResponse)
        (now : Int), now ≤ t + c.ttl →
      (c.SetPaginatedTree t page pageSize r).GetPaginatedTree now page pageSize =
        (some r, true)) ∧
    (∀ (c : MemoryCache) (t page pageSize : Int) (r : PaginatedTreeResponse)
        (now page' pageSize' : Int), (page', pageSize') ≠ (page, pageSize) →
      (c.SetPaginatedTree t page pageSize r).GetPaginatedTree now page' pageSize' =
        c.GetPaginatedTree now page' pageSize') := by
  refine ⟨?_, ?_, ?_⟩
  · intro c now page pageSize hsync
    cases hE : mapLookup c.expiries (getCacheKey page pageSize) with
    | none => simp [MemoryCache.GetPaginatedTree, hE]
    | some e =>
      rw [hE] at hsync
      cases hD : mapLookup c.data (getCacheKey page pageSize) with
      | none => rw [hD] at hsync; simp at hsync
      | some resp =>
        by_cases hlt : e < now
        · simp only [MemoryCache.GetPaginatedTree, hE, hD, hlt, if_true]
          simp [hlt]
        · simp only [MemoryCache.GetPaginatedTree, hE, hD, hlt, if_false]
          simp [hlt]
  · intro c t page pageSize r now hnow
    have hle : ¬ (t + c.ttl < now) := not_lt.mpr hnow
    simp [MemoryCache.GetPaginatedTree, MemoryCache.SetPaginatedTree,
      mapLookup_insert, hle]
  · intro c t page pageSize r now page' pageSize' hne
    have hk : getCacheKey page' pageSize' ≠ getCacheKey page pageSize := by
      simpa [getCacheKey] using hne
    simp [MemoryCache.GetPaginatedTree, MemoryCache.SetPaginatedTree,
      mapLookup_insert, hk]

/-- Witness for claim C4 as amended, at concrete inputs: a get on the empty
cache misses by the characterisation; a put at 0 with ttl 5 read at 3 hits
with the stored response; a put on key (1,10) leaves key (2,10) unchanged. -/
theorem claim_C4_get_miss_characterisation_witness :
    ((((MemoryCache.new 5).GetPaginatedTree 0 1 10).2 = false ↔
      mapLookup (MemoryCache.new 5).expiries (getCacheKey 1 10) = none ∨
      (∃ e, mapLookup (MemoryCache.new 5).expiries (getCacheKey 1 10) = some e ∧
        (0 : Int) > e))) ∧
    ((MemoryCache.new 5).SetPaginatedTree 0 1 10 sampleResponse).GetPaginatedTree
      3 1 10 = (some sampleResponse, true) ∧
    ((MemoryCache.new 5).SetPaginatedTree 0 1 10 sampleResponse).GetPaginatedTree
      3 2 10 = (MemoryCache.new 5).GetPaginatedTree 3 2 10 :=
  ⟨claim_C4_get_miss_characterisation.1 (MemoryCache.new 5) 0 1 10 rfl,
   claim_C4_get_miss_characterisation.2.1 (MemoryCache.new 5) 0 1 10
     sampleResponse 3 (by decide),
   claim_C4_get_miss_characterisation.2.2 (MemoryCache.new 5) 0 1 10
     sampleResponse 3 2 10 (by decide)⟩

/-- Sorting a store keeps its size. -/
theorem sortById_length (store : List RNode) :
    (sortById store).length = store.length := by
  unfold sortById
  exact List.length_insertionSort _ store

/-- The page window described by the spec for the listing operation: all
nodes ordered by ascending id, sliced to [(page-1)*pageSize,
page*pageSize). -/
def listWindow (store : Store) (page pageSize : Int) : List RNode :=
  ((sortById store).drop ((page - 1) * pageSize).toNat).take pageSize.toNat

/-- Counterexample to claim C2 as stated: the GetAllNodes of
src/unnamed/part_016, on the three-node store with roots 1 and 3 and child 2,
at page 2 and pageSize 10, returns all three nodes (its pageSize >= store
size shortcut ignores the page), not the empty window
[(2-1)*10, 2*10) the claim demands. -/
theorem claim_C2_counterexample :
    MockRepository.GetAllNodes16
        [⟨1, "a", none⟩, ⟨2, "b", some 1⟩, ⟨3, "c", none⟩] 2 10 ≠
      some (listWindow [⟨1, "a", none⟩, ⟨2, "b", some 1⟩, ⟨3, "c", none⟩] 2 10,
        3) ∧
    MockRepository.GetAllNodes16
        [⟨1, "a", none⟩, ⟨2, "b", some 1⟩, ⟨3, "c", none⟩] 2 10 =
      some ([⟨1, "a", none⟩, ⟨2, "b", some 1⟩, ⟨3, "c", none⟩], 3) ∧
    listWindow [⟨1, "a", none⟩, ⟨2, "b", some 1⟩, ⟨3, "c", none⟩] 2 10 = [] := by
  decide

/-- Claim C2 as amended: the GetAllNodes of src/unnamed/part_015 and the
PostgresRepository.GetAllNodes (modelled from its SQL) return, for every
store and every page ≥ 1 and pageSize ≥ 1, exactly the nodes sorted by
ascending id sliced to [(page-1)*pageSize, page*pageSize), with total the
full store size independent of the slice; the GetAllNodes of
src/unnamed/part_016 does not obey this window (see the counterexample). -/
theorem claim_C2_window_listing (store : Store) (page pageSize : Int)
    (hp : 1 ≤ page) (hps : 1 ≤ pageSize) :
    MockRepository.GetAllNodes15 store page pageSize =
      some (listWindow store page pageSize, ((store : List RNode).length : Int)) ∧
    PostgresRepository.GetAllNodes store page pageSize =
      some (listWindow store page pageSize, ((store : List RNode).length : Int)) := by
  have hoff : 0 ≤ (page - 1) * pageSize :=
    mul_nonneg (by omega) (by omega)
  constructor
  · rw [MockRepository.GetAllNodes15]
    by_cases hstart : (page - 1) * pageSize ≥ ((store : List RNode).length : Int)
    · have hwin : listWindow store page pageSize = [] := by
        rw [listWindow]
        have hlen : (sortById store).length ≤ ((page - 1) * pageSize).toNat := by
          rw [sortById_length]; omega
        rw [List.drop_eq_nil_of_le hlen, List.take_nil]
      simp only [hstart, if_true, hwin]
    · have hlt : (page - 1) * pageSize < ((store : List RNode).length : Int) := by
        omega
      simp only [hstart, if_false]
      set total : Int := ((store : List RNode).length : Int) with htotal
      set offset : Int := (page - 1) * pageSize with hoffset
      have hstop : offset ≤ (if offset + pageSize > total then total
          else offset + pageSize) := by
        split <;> omega
      have hstople : (if offset + pageSize > total then total
          else offset + pageSize) ≤ ((sortById store).length : Int) := by
        rw [sortById_length]
        split <;> omega
      rw [goSlice, if_pos ⟨hoff, hstop, hstople⟩]
      simp only [Option.map_some']
      have htake : ((sortById store).drop offset.toNat).take
          ((if offset + pageSize > total then total else offset + pageSize)
            - offset).toNat =
          ((sortById store).drop offset.toNat).take pageSize.toNat := by
        by_cases hc : offset + pageSize > total
        · rw [if_pos hc]
          have hdlen : ((sortById store).drop offset.toNat).length =
              (sortById store).length - offset.toNat := List.length_drop _ _
          rw [sortById_length] at hdlen
          rw [List.take_of_length_le (by omega), List.take_of_length_le (by omega)]
        · rw [if_neg hc]
          congr 1
          omega
      rw [htake, listWindow]
  · rw [PostgresRepository.GetAllNodes, listWindow]
    have : ¬ ((page - 1) * pageSize < 0 ∨ pageSize < 0) := by
      push_neg
      exact ⟨hoff, by omega⟩
    rw [if_neg this]

/-- Witness for claim C2 as amended: the two-root-one-child store at page 1,
pageSize 2 yields the first two nodes by id and total 3 in both
implementations. -/
theorem claim_C2_window_listing_witness :
    MockRepository.GetAllNodes15
        [⟨1, "a", none⟩, ⟨2, "b", some 1⟩, ⟨3, "c", none⟩] 1 2 =
      some (listWindow [⟨1, "a", none⟩, ⟨2, "b", some 1⟩, ⟨3, "c", none⟩] 1 2,
        3) ∧
    PostgresRepository.GetAllNodes
        [⟨1, "a", none⟩, ⟨2, "b", some 1⟩, ⟨3, "c", none⟩] 1 2 =
      some (listWindow [⟨1, "a", none⟩, ⟨2, "b", some 1⟩, ⟨3, "c", none⟩] 1 2,
        3) :=
  claim_C2_window_listing [⟨1, "a", none⟩, ⟨2, "b", some 1⟩, ⟨3, "c", none⟩]
    1 2 (by decide) (by decide)

/-- Claim C5, evaluated at the failing input: the DeleteNode of
src/unnamed/part_016, called on a store holding only node 1 with the absent
id 42, runs its breadth-first loop (which deletes nothing), returns success,
and never produces ErrNodeNotFound, although the Repository interface
documents ErrNodeNotFound when no node with the id exists. -/
theorem claim_C5_delete_missing_id_succeeds :
    MockRepository.DeleteNode [⟨1, "root", none⟩] 42 = .ok [⟨1, "root", none⟩] := by
  simp [MockRepository.DeleteNode, deleteLoop]

/-- Claim C8, evaluated at the failing inputs: both cited GetAllNodes
variants compute a negative slice lower bound for page < 1 and panic (the
Go slice expression aborts; modelled as none) instead of returning an empty
slice: part_015 on a one-node store at page 0, pageSize 10 evaluates
allNodes[-10:0], and part_016 on a two-root store at page 0, pageSize 1
evaluates rootNodes[-1:0]. Moreover the part_016 variant does not return an
empty slice for a window beyond the last row either: at page 999 of a
three-node store with pageSize 1 its fallback block returns the whole store,
with the parent of the child row appended twice. -/
theorem claim_C8_negative_offset_panics :
    MockRepository.GetAllNodes15 [⟨1, "a", none⟩] 0 10 = none ∧
    MockRepository.GetAllNodes16 [⟨1, "a", none⟩, ⟨2, "b", none⟩] 0 1 = none ∧
    (MockRepository.GetAllNodes16
        [⟨1, "a", none⟩, ⟨2, "b", some 1⟩, ⟨3, "c", none⟩] 999 1).map
      (fun r => (r.1.map RNode.id, r.2)) = some ([1, 1, 2, 3], 3) ∧
    MockRepository.GetAllNodes15
        [⟨1, "a", none⟩, ⟨2, "b", some 1⟩, ⟨3, "c", none⟩] 999 1 = some ([], 3) := by
  decide

/-- Claim C9, evaluated at the failing sequence: create "a" (id 1), create
"b" (id 2), delete node 1, then create "c": the store then holds only node
2, len(m.nodes) + 1 = 2, so the create returns id 2, which is the id of a
node currently in the store, and the map assignment overwrites node 2 with
the new node. -/
theorem claim_C9_created_id_collides_after_delete :
    MockRepository.CreateNode [] "a" none = (1, [⟨1, "a", none⟩]) ∧
    MockRepository.CreateNode [⟨1, "a", none⟩] "b" none =
      (2, [⟨1, "a", none⟩, ⟨2, "b", none⟩]) ∧
    MockRepository.DeleteNode [⟨1, "a", none⟩, ⟨2, "b", none⟩] 1 =
      .ok [⟨2, "b", none⟩] ∧
    (2 : Int) ∈ ([⟨2, "b", none⟩] : Store).map RNode.id ∧
    MockRepository.CreateNode [⟨2, "b", none⟩] "c" none = (2, [⟨2, "c", none⟩]) := by
  refine ⟨by decide, by decide, ?_, by decide, by decide⟩
  simp [MockRepository.DeleteNode, deleteLoop]

/-- The repository argument of the handler wired to the part_015 mock over a
fixed store, as the tests wire NewMockRepository into NewTreeHandler; the
panic case of the mock is surfaced as a repository error, and is unreachable for
the sanitized page ≥ 1 the handler always passes. -/
def repoOfStore15 (store : Store) : Int → Int → Except Unit (List RNode × Int) :=
  fun page pageSize =>
    match MockRepository.GetAllNodes15 store page pageSize with
    | some r => .ok r
    | none => .error ()

/-- Whatever the cache, repository and parameters, the serving stage of
GetTree answers 200 or 500, never 400. -/
theorem serveTree_status (repo : Int → Int → Except Unit (List RNode × Int))
    (c : MemoryCache) (now page pageSize : Int) :
    (serveTree repo c now page pageSize).status = 200 ∨
    (serveTree repo c now page pageSize).status = 500 := by
  rw [serveTree]
  split
  · exact Or.inl rfl
  · split
    · exact Or.inr rfl
    · split
      · split
        · exact Or.inl rfl
        · exact Or.inl rfl
      · exact Or.inl rfl

/-- Claim C6: a present pageSize query value that does not parse as an
integer, parses to a non-positive value, or parses above 100 makes GetTree
return status 400 whatever the rest of the request or state is; the value
100 itself is never rejected; and an absent pageSize behaves exactly as the
explicit value 10. -/
theorem claim_C6_pageSize_validation :
    (∀ (repo : Int → Int → Except Unit (List RNode × Int)) (c : MemoryCache)
        (now : Int) (pageStr s : String), s ≠ "" → Atoi s = none →
      (TreeHandler.GetTree repo c now pageStr s).status = 400) ∧
    (∀ (repo : Int → Int → Except Unit (List RNode × Int)) (c : MemoryCache)
        (now : Int) (pageStr s : String) (v : Int), s ≠ "" → Atoi s = some v →
      v ≤ 0 → (TreeHandler.GetTree repo c now pageStr s).status = 400) ∧
    (∀ (repo : Int → Int → Except Unit (List RNode × Int)) (c : MemoryCache)
        (now : Int) (pageStr s : String) (v : Int), s ≠ "" → Atoi s = some v →
      v > 100 → (TreeHandler.GetTree repo c now pageStr s).status = 400) ∧
    (∀ (repo : Int → Int → Except Unit (List RNode × Int)) (c : MemoryCache)
        (now : Int) (pageStr : String),
      (TreeHandler.GetTree repo c now pageStr "100").status ≠ 400) ∧
    (∀ (repo : Int → Int → Except Unit (List RNode × Int)) (c : MemoryCache)
        (now : Int) (pageStr : String),
      TreeHandler.GetTree repo c now pageStr "" =
        TreeHandler.GetTree repo c now pageStr "10") := by
  refine ⟨?_, ?_, ?_, ?_, ?_⟩
  · intro repo c now pageStr s hne hAtoi
    simp [TreeHandler.GetTree, parsePageSize, hne, hAtoi]
  · intro repo c now pageStr s v hne hAtoi hv
    simp [TreeHandler.GetTree, parsePageSize, hne, hAtoi, hv]
  · intro repo c now pageStr s v hne hAtoi hv
    have hv0 : ¬ (v ≤ 0) := by omega
    simp [TreeHandler.GetTree, parsePageSize, hne, hAtoi, hv0, hv]
  · intro repo c now pageStr
    have h100 : parsePageSize "100" = .ok 100 := rfl
    rw [TreeHandler.GetTree, h100]
    rcases serveTree_status repo c now (parsePage pageStr) 100 with h | h <;> simp [h]
  · intro repo c now pageStr
    have h10 : parsePageSize "" = parsePageSize "10" := rfl
    rw [TreeHandler.GetTree, TreeHandler.GetTree, h10]

/-- Witness for claim C6 at concrete requests against the part_015 mock over
the empty store: pageSize values abc, 0 and 101 give 400, the value 100 does
not, and an absent pageSize equals pageSize 10. -/
theorem claim_C6_pageSize_validation_witness :
    (TreeHandler.GetTree (repoOfStore15 []) (MemoryCache.new 5) 0 "" "abc").status
      = 400 ∧
    (TreeHandler.GetTree (repoOfStore15 []) (MemoryCache.new 5) 0 "" "0").status
      = 400 ∧
    (TreeHandler.GetTree (repoOfStore15 []) (MemoryCache.new 5) 0 "" "101").status
      = 400 ∧
    (TreeHandler.GetTree (repoOfStore15 []) (MemoryCache.new 5) 0 "" "100").status
      ≠ 400 ∧
    TreeHandler.GetTree (repoOfStore15 []) (MemoryCache.new 5) 0 "" "" =
      TreeHandler.GetTree (repoOfStore15 []) (MemoryCache.new 5) 0 "" "10" :=
  ⟨claim_C6_pageSize_validation.1 (repoOfStore15 []) (MemoryCache.new 5) 0 ""
      "abc" (by decide) rfl,
   claim_C6_pageSize_validation.2.1 (repoOfStore15 []) (MemoryCache.new 5) 0 ""
      "0" 0 (by decide) rfl (by decide),
   claim_C6_pageSize_validation.2.2.1 (repoOfStore15 []) (MemoryCache.new 5) 0 ""
      "101" 101 (by decide) rfl (by decide),
   claim_C6_pageSize_validation.2.2.2.1 (repoOfStore15 []) (MemoryCache.new 5) 0 "",
   claim_C6_pageSize_validation.2.2.2.2 (repoOfStore15 []) (MemoryCache.new 5) 0 ""⟩

/-- Counterexample to claim C7 as stated: with the part_015 mock over the
empty store and an empty cache, the page values 0 and abc are both invalid,
yet GetTree answers 200, not 400: the handler silently keeps page = 1. -/
theorem claim_C7_counterexample :
    (TreeHandler.GetTree (repoOfStore15 []) (MemoryCache.new 5) 0 "0" "").status
      = 200 ∧
    (TreeHandler.GetTree (repoOfStore15 []) (MemoryCache.new 5) 0 "abc" "").status
      = 200 := by
  decide

/-- Claim C7 as amended: an invalid page query value (one that does not
parse, or parses to a value below 1) is silently ignored: the request
proceeds exactly as if no page parameter had been sent, with page = 1, and
is never rejected for it. -/
theorem claim_C7_invalid_page_defaults_to_one
    (repo : Int → Int → Except Unit (List RNode × Int)) (c : MemoryCache)
    (now : Int) (pageStr pageSizeStr : String)
    (hbad : Atoi pageStr = none ∨ ∃ v, Atoi pageStr = some v ∧ v ≤ 0) :
    TreeHandler.GetTree repo c now pageStr pageSizeStr =
      TreeHandler.GetTree repo c now "" pageSizeStr := by
  have hpage : parsePage pageStr = parsePage "" := by
    by_cases hne : pageStr = ""
    · rw [hne]
    · rcases hbad with hnone | ⟨v, hv, hvle⟩
      · simp [parsePage, hne, hnone]
      · have hv0 : ¬ (v > 0) := by omega
        simp [parsePage, hne, hv, hv0]
  rw [TreeHandler.GetTree, TreeHandler.GetTree, hpage]

/-- Witness for claim C7 as amended: the request with page 0 behaves exactly
as the request without a page parameter. -/
theorem claim_C7_invalid_page_defaults_to_one_witness :
    TreeHandler.GetTree (repoOfStore15 []) (MemoryCache.new 5) 0 "0" "" =
      TreeHandler.GetTree (repoOfStore15 []) (MemoryCache.new 5) 0 "" "" :=
  claim_C7_invalid_page_defaults_to_one (repoOfStore15 []) (MemoryCache.new 5)
    0 "0" "" (Or.inr ⟨0, rfl, by decide⟩)
